import Mathlib

/-!
Verification of the adaptive text-layout engine of the scripture wallpaper
generator frontend (`src/frontend/main.js`, class `CanvasWallpaperEditor`).

Modelling conventions for the shallow embedding:
* JavaScript strings are modelled as lists of characters (`JStr`).
* The canvas 2D metrics backend (`ctx.measureText`) is an abstract parameter:
  `measure : ℤ → JStr → ℚ` gives the measured width of a string at an integer
  font size (the code always sets `ctx.font` to the current integer font size
  before measuring), and `lineBox : ℤ → ℚ` gives
  `actualBoundingBoxAscent + actualBoundingBoxDescent` of the probe string
  `'Ag'` at a font size.
* JavaScript numbers are modelled as exact rationals; `Math.round` is
  `⌊x + 1/2⌋` and `Math.floor` is `⌊x⌋`.
* A JavaScript variable that can still be `undefined` (the `let` declarations
  filled only inside the shrink loop) is modelled with `Option`; `none`
  corresponds to `undefined`, and arithmetic on it (which yields `NaN` in JS)
  is modelled by propagating `none`.
-/

namespace ScriptureWallpaper

/-- JavaScript strings, modelled as lists of characters. -/
abbrev JStr := List Char

/-- `text.split(' ')` from `wrapText` (main.js line 823): split on every single
space character; consecutive spaces yield empty pieces, and the empty string
splits to `[""]`, exactly as in JavaScript. -/
def splitOnSpace : JStr → List JStr
  | [] => [[]]
  | c :: cs =>
    if c = ' ' then [] :: splitOnSpace cs
    else
      match splitOnSpace cs with
      | [] => [[c]]
      | word :: ws => (c :: word) :: ws

/-- `currentLine + (currentLine ? ' ' : '') + word` (main.js line 828). -/
def testLine (cur word : JStr) : JStr :=
  if cur = [] then word else cur ++ ' ' :: word

/-- The `for (let word of words)` loop of `wrapText` (main.js lines 827-841),
with the final `if (currentLine) lines.push(currentLine)` folded into the base
case.  `w` is the width metric of the current canvas font. -/
def wrapLoop (w : JStr → ℚ) (maxW : ℚ) : List JStr → JStr → List JStr
  | [], cur => if cur = [] then [] else [cur]
  | word :: rest, cur =>
    if maxW < w (testLine cur word) ∧ cur ≠ [] then
      cur :: wrapLoop w maxW rest word
    else
      wrapLoop w maxW rest (testLine cur word)

/-- `wrapText(text, maxWidth)` (main.js lines 822-844). -/
def wrapText (w : JStr → ℚ) (text : JStr) (maxW : ℚ) : List JStr :=
  wrapLoop w maxW (splitOnSpace text) []

/-- Joining lines back with a single space between consecutive pieces
(the inverse direction of `split(' ')`). -/
def joinSp : List JStr → JStr
  | [] => []
  | [l] => l
  | l :: l' :: ls => l ++ ' ' :: joinSp (l' :: ls)

theorem joinSp_cons_of_ne (a : JStr) {L : List JStr} (h : L ≠ []) :
    joinSp (a :: L) = a ++ ' ' :: joinSp L := by
  cases L with
  | nil => exact absurd rfl h
  | cons b bs => rfl

theorem splitOnSpace_ne_nil (s : JStr) : splitOnSpace s ≠ [] := by
  cases s with
  | nil => simp [splitOnSpace]
  | cons c cs =>
    simp only [splitOnSpace]
    split
    · simp
    · split <;> simp

theorem joinSp_splitOnSpace (s : JStr) : joinSp (splitOnSpace s) = s := by
  induction s with
  | nil => rfl
  | cons c cs ih =>
    simp only [splitOnSpace]
    split
    · rename_i hc
      rw [joinSp_cons_of_ne _ (splitOnSpace_ne_nil cs), ih, hc]
      rfl
    · rename_i hc
      cases hsp : splitOnSpace cs with
      | nil => exact absurd hsp (splitOnSpace_ne_nil cs)
      | cons word ws =>
        rw [hsp] at ih
        cases ws with
        | nil =>
          simp only [joinSp] at ih ⊢
          rw [ih]
        | cons w' ws' =>
          rw [joinSp_cons_of_ne _ (by simp)] at ih ⊢
          simp only [List.cons_append, List.append_assoc] at ih ⊢
          rw [← ih]

theorem wrapLoop_mem_ne_nil (w : JStr → ℚ) (maxW : ℚ) :
    ∀ (words : List JStr) (cur l : JStr), l ∈ wrapLoop w maxW words cur → l ≠ [] := by
  intro words
  induction words with
  | nil =>
    intro cur l hl
    simp only [wrapLoop] at hl
    split at hl
    · simp at hl
    · rename_i h
      simp only [List.mem_singleton] at hl
      rw [hl]; exact h
  | cons word rest ih =>
    intro cur l hl
    simp only [wrapLoop] at hl
    split at hl
    · rename_i h
      rcases List.mem_cons.mp hl with hcur | htail
      · rw [hcur]; exact h.2
      · exact ih word l htail
    · exact ih _ l hl

theorem wrapLoop_ne_nil_of_cur (w : JStr → ℚ) (maxW : ℚ) :
    ∀ (words : List JStr) (cur : JStr), cur ≠ [] → wrapLoop w maxW words cur ≠ [] := by
  intro words
  induction words with
  | nil =>
    intro cur hcur
    simp only [wrapLoop]
    split
    · exact absurd (by assumption) hcur
    · simp
  | cons word rest ih =>
    intro cur hcur
    simp only [wrapLoop]
    split
    · simp
    · apply ih
      simp only [testLine]
      split
      · exact absurd (by assumption) hcur
      · simp

theorem wrapLoop_sound (w : JStr → ℚ) (maxW : ℚ) :
    ∀ (words : List JStr) (cur l : JStr), l ∈ wrapLoop w maxW words cur →
      w l ≤ maxW ∨ l = cur ∨ l ∈ words := by
  intro words
  induction words with
  | nil =>
    intro cur l hl
    simp only [wrapLoop] at hl
    split at hl
    · simp at hl
    · simp only [List.mem_singleton] at hl
      exact Or.inr (Or.inl hl)
  | cons word rest ih =>
    intro cur l hl
    simp only [wrapLoop] at hl
    split at hl
    · rcases List.mem_cons.mp hl with hcur | htail
      · exact Or.inr (Or.inl hcur)
      · rcases ih word l htail with hle | heq | hmem
        · exact Or.inl hle
        · exact Or.inr (Or.inr (by rw [heq]; exact List.mem_cons_self _ _))
        · exact Or.inr (Or.inr (List.mem_cons_of_mem _ hmem))
    · rename_i h
      rcases ih (testLine cur word) l hl with hle | heq | hmem
      · exact Or.inl hle
      · rcases not_and_or.mp h with hnl | hc
        · exact Or.inl (by rw [heq]; exact le_of_not_lt hnl)
        · have hcur : cur = [] := not_not.mp hc
          subst heq
          simp only [testLine, if_pos hcur]
          exact Or.inr (Or.inr (List.mem_cons_self _ _))
      · exact Or.inr (Or.inr (List.mem_cons_of_mem _ hmem))

theorem joinSp_append_cons (a b : JStr) (rest : List JStr) :
    joinSp ((a ++ ' ' :: b) :: rest) = a ++ ' ' :: joinSp (b :: rest) := by
  cases rest with
  | nil => rfl
  | cons c t => simp [joinSp, List.append_assoc]

theorem wrapLoop_join (w : JStr → ℚ) (maxW : ℚ) :
    ∀ (words : List JStr) (cur : JStr), (∀ x ∈ words, x ≠ []) →
      joinSp (wrapLoop w maxW words cur) =
        if cur = [] then joinSp words else joinSp (cur :: words) := by
  intro words
  induction words with
  | nil =>
    intro cur _
    simp only [wrapLoop]
    split <;> simp_all [joinSp]
  | cons word rest ih =>
    intro cur hw
    have hword : word ≠ [] := hw word (List.mem_cons_self _ _)
    have hrest : ∀ x ∈ rest, x ≠ [] := fun x hx => hw x (List.mem_cons_of_mem _ hx)
    simp only [wrapLoop]
    split
    · rename_i h
      rw [if_neg h.2, joinSp_cons_of_ne _ (wrapLoop_ne_nil_of_cur w maxW rest word hword),
        ih word hrest, if_neg hword,
        joinSp_cons_of_ne _ (show word :: rest ≠ [] by simp)]
    · rw [ih (testLine cur word) hrest]
      by_cases hcur : cur = []
      · simp [testLine, hcur, hword]
      · simp only [testLine, if_neg hcur]
        rw [if_neg (show ¬(cur ++ ' ' :: word = []) by simp)]
        rw [joinSp_append_cons,
          joinSp_cons_of_ne _ (show word :: rest ≠ [] by simp)]

/-- JavaScript `Math.round`: round half toward positive infinity. -/
def jsRound (q : ℚ) : ℤ := ⌊q + 1/2⌋

/-- The inputs `renderCanvas` (main.js lines 713-820) reads from the canvas and
the controls: canvas dimensions, the boundary percent sliders, the font-size
slider (`parseInt`, hence an integer), the line-spacing slider, and the
currently fetched verse and reference. -/
structure RenderInput where
  canvasWidth : ℚ
  canvasHeight : ℚ
  topBoundaryPercent : ℚ
  bottomBoundaryPercent : ℚ
  fontSize : ℤ
  lineSpacing : ℚ
  verse : JStr
  reference : JStr
  deriving DecidableEq

/-- `topBoundary = Math.round(canvasHeight * (topBoundaryPercent / 100))`
(main.js line 738). -/
def topBoundary (inp : RenderInput) : ℤ :=
  jsRound (inp.canvasHeight * (inp.topBoundaryPercent / 100))

/-- `bottomBoundary = Math.round(canvasHeight * ((100 - bottomBoundaryPercent) / 100))`
(main.js line 739). -/
def bottomBoundary (inp : RenderInput) : ℤ :=
  jsRound (inp.canvasHeight * ((100 - inp.bottomBoundaryPercent) / 100))

/-- `boundaryMargin = 40` (main.js line 742). -/
def boundaryMargin : ℤ := 40

/-- `textAreaTop = topBoundary + boundaryMargin` (main.js line 743). -/
def textAreaTop (inp : RenderInput) : ℤ := topBoundary inp + boundaryMargin

/-- `textAreaBottom = bottomBoundary - boundaryMargin` (main.js line 744). -/
def textAreaBottom (inp : RenderInput) : ℤ := bottomBoundary inp - boundaryMargin

/-- `availableHeight = textAreaBottom - textAreaTop` (main.js line 745). -/
def availableHeight (inp : RenderInput) : ℤ := textAreaBottom inp - textAreaTop inp

/-- `maxWidth = canvasWidth - (margin * 2)` with `margin = 80`
(main.js lines 754-755). -/
def renderMaxWidth (inp : RenderInput) : ℚ := inp.canvasWidth - 80 * 2

/-- The verse lines wrapped at a candidate font size: `ctx.font` is set to the
candidate size and then `lines = this.wrapText(this.currentVerse, maxWidth)`
(main.js lines 767, 772; also the pre-loop wrap at lines 749, 756). -/
def candidateLines (measure : ℤ → JStr → ℚ) (inp : RenderInput) (size : ℤ) : List JStr :=
  wrapText (measure size) inp.verse (renderMaxWidth inp)

/-- The `let` variables the shrink-loop body fills at one candidate font size
(main.js lines 766-787): `actualLineHeight` from measuring `'Ag'`,
`referenceFontSize = currentFontSize`, `referenceHeight` from measuring `'Ag'`
again at `referenceFontSize`, and
`totalContentHeight = verseHeight + spaceBetween + referenceHeight`. -/
structure FitVars where
  actualLineHeight : ℚ
  referenceFontSize : ℤ
  referenceHeight : ℚ
  totalContentHeight : ℚ
  deriving DecidableEq

/-- One body of the shrink loop at font size `size` (main.js lines 766-787). -/
def candidateVars (measure : ℤ → JStr → ℚ) (lineBox : ℤ → ℚ) (inp : RenderInput)
    (size : ℤ) : FitVars :=
  let actualLineHeight := lineBox size
  let lines' := candidateLines measure inp size
  let verseHeight := actualLineHeight * lines'.length
  let verseHeight :=
    if 1 < lines'.length then
      verseHeight + actualLineHeight * (inp.lineSpacing - 1) * ((lines'.length : ℚ) - 1)
    else verseHeight
  let referenceFontSize := size
  let referenceHeight := lineBox referenceFontSize
  let spaceBetween : ℚ := 40
  ⟨actualLineHeight, referenceFontSize, referenceHeight,
    verseHeight + spaceBetween + referenceHeight⟩

/-- Outcome of the shrink loop: the final `currentFontSize`, the final `lines`,
the possibly-still-`undefined` loop variables (`none` when the loop body never
ran), whether the loop exited through the `break` (content fits), and how many
times the body ran. -/
structure FitResult where
  fontSize : ℤ
  lines : List JStr
  vars : Option FitVars
  fitted : Bool
  iters : ℕ
  deriving DecidableEq

/-- The `while (currentFontSize > 20)` shrink loop (main.js lines 765-796).
`fuel` is a structural-recursion bound; `fitSolver` always supplies enough fuel
for the zero-fuel branch to be unreachable (the loop strictly decreases
`currentFontSize` by 2 each pass while it stays above 20). -/
def fitLoop (measure : ℤ → JStr → ℚ) (lineBox : ℤ → ℚ) (inp : RenderInput) :
    ℕ → ℤ → List JStr → Option FitVars → ℕ → FitResult
  | 0, size, lines, vars, iters => ⟨size, lines, vars, false, iters⟩
  | fuel + 1, size, lines, vars, iters =>
    if 20 < size then
      let v := candidateVars measure lineBox inp size
      let lines' := candidateLines measure inp size
      if v.totalContentHeight ≤ ((availableHeight inp : ℤ) : ℚ) then
        ⟨size, lines', some v, true, iters + 1⟩
      else
        fitLoop measure lineBox inp fuel (size - 2) lines' (some v) (iters + 1)
    else
      ⟨size, lines, vars, false, iters⟩

/-- The font-size reduction phase of `renderCanvas`: the initial wrap at the
slider font size (main.js lines 749, 756) followed by the shrink loop
(lines 765-796), starting from `currentFontSize = parseInt(fontSizeSlider.value)`. -/
def fitSolver (measure : ℤ → JStr → ℚ) (lineBox : ℤ → ℚ) (inp : RenderInput) : FitResult :=
  fitLoop measure lineBox inp ((inp.fontSize - 20).toNat + 1) inp.fontSize
    (candidateLines measure inp inp.fontSize) none 0

/-- The `lines.forEach` drawing loop (main.js lines 803-812): returns the drawn
y positions of `n` verse lines starting at `y`, and the value of `currentY`
after the loop (after the last line only `actualLineHeight` is added; between
lines `actualLineHeight + actualLineHeight * (lineSpacing - 1)` is added). -/
def baselinesFrom (lh ls : ℚ) : ℚ → ℕ → List ℚ × ℚ
  | y, 0 => ([], y)
  | y, 1 => ([y], y + lh)
  | y, n + 2 =>
    let r := baselinesFrom lh ls (y + (lh + lh * (ls - 1))) (n + 1)
    (y :: r.1, r.2)

/-- The outcome of one `renderCanvas` call with a non-empty verse: the fit
result, `startY` (main.js line 799), the drawn verse line positions, and the
reference position (`currentY += 40` then draw, main.js lines 815-819).
`none` components model `NaN` positions arising from still-`undefined`
loop variables. -/
structure RenderResult where
  fit : FitResult
  startY : Option ℚ
  verseBaselines : Option (List ℚ)
  referenceBaseline : Option ℚ
  deriving DecidableEq

/-- The layout-relevant tail of `renderCanvas` (main.js lines 758-819) for a
non-empty verse: run the shrink loop, compute
`startY = textAreaTop + Math.floor((availableHeight - totalContentHeight) / 2)`,
draw the verse lines, then the reference.  When the loop body never ran,
`totalContentHeight` is still `undefined` and `startY` and every drawn
position are `NaN`, modelled as `none`. -/
def render (measure : ℤ → JStr → ℚ) (lineBox : ℤ → ℚ) (inp : RenderInput) : RenderResult :=
  let fit := fitSolver measure lineBox inp
  match fit.vars with
  | none => ⟨fit, none, none, none⟩
  | some v =>
    let startY : ℚ :=
      ((textAreaTop inp : ℤ) : ℚ) +
        ((⌊(((availableHeight inp : ℤ) : ℚ) - v.totalContentHeight) / 2⌋ : ℤ) : ℚ)
    let bl := baselinesFrom v.actualLineHeight inp.lineSpacing startY fit.lines.length
    ⟨fit, some startY, some bl.1,
      if inp.reference = [] then none else some (bl.2 + 40)⟩

/-- `renderCanvas` (main.js lines 713-820): with an empty verse only the
placeholder is drawn and no layout happens (line 722); otherwise the layout
pipeline runs. -/
def renderCanvas (measure : ℤ → JStr → ℚ) (lineBox : ℤ → ℚ) (inp : RenderInput) :
    Option RenderResult :=
  if inp.verse = [] then none else some (render measure lineBox inp)

theorem fitLoop_bounds (m : ℤ → JStr → ℚ) (lb : ℤ → ℚ) (inp : RenderInput) :
    ∀ (fuel : ℕ) (size : ℤ) (lines : List JStr) (vars : Option FitVars) (iters : ℕ),
      (fitLoop m lb inp fuel size lines vars iters).fontSize ≤ size ∧
      2 ∣ (size - (fitLoop m lb inp fuel size lines vars iters).fontSize) ∧
      min size 19 ≤ (fitLoop m lb inp fuel size lines vars iters).fontSize ∧
      2 * (fitLoop m lb inp fuel size lines vars iters).iters ≤
        2 * iters + (size - 19).toNat := by
  intro fuel
  induction fuel with
  | zero =>
    intro size lines vars iters
    simp only [fitLoop]
    omega
  | succ fuel ih =>
    intro size lines vars iters
    simp only [fitLoop]
    split_ifs with h1 h2
    · simp only
      omega
    · have H := ih (size - 2) (candidateLines m inp size)
        (some (candidateVars m lb inp size)) (iters + 1)
      omega
    · simp only
      omega

theorem fitLoop_min_of_not_fitted (m : ℤ → JStr → ℚ) (lb : ℤ → ℚ) (inp : RenderInput) :
    ∀ (fuel : ℕ) (size : ℤ) (lines : List JStr) (vars : Option FitVars) (iters : ℕ),
      size - 20 ≤ 2 * (fuel : ℤ) →
      (fitLoop m lb inp fuel size lines vars iters).fitted = false →
      (fitLoop m lb inp fuel size lines vars iters).fontSize ≤ 20 := by
  intro fuel
  induction fuel with
  | zero =>
    intro size lines vars iters hfuel _
    simp only [fitLoop]
    omega
  | succ fuel ih =>
    intro size lines vars iters hfuel hfit
    simp only [fitLoop] at hfit ⊢
    by_cases h1 : 20 < size
    · by_cases h2 : (candidateVars m lb inp size).totalContentHeight ≤
        ((availableHeight inp : ℤ) : ℚ)
      · rw [if_pos h1, if_pos h2] at hfit
        simp at hfit
      · rw [if_pos h1, if_neg h2] at hfit ⊢
        exact ih (size - 2) _ _ (iters + 1) (by omega) hfit
    · rw [if_neg h1]
      show size ≤ 20
      omega

theorem fitLoop_vars_inv (m : ℤ → JStr → ℚ) (lb : ℤ → ℚ) (inp : RenderInput) :
    ∀ (fuel : ℕ) (size : ℤ) (lines : List JStr) (vars : Option FitVars) (iters : ℕ),
      (vars = none ∨ ∃ s, vars = some (candidateVars m lb inp s) ∧
          lines = candidateLines m inp s) →
      ((fitLoop m lb inp fuel size lines vars iters).vars = none ∨
        ∃ s, (fitLoop m lb inp fuel size lines vars iters).vars =
            some (candidateVars m lb inp s) ∧
          (fitLoop m lb inp fuel size lines vars iters).lines = candidateLines m inp s) := by
  intro fuel
  induction fuel with
  | zero =>
    intro size lines vars iters hinv
    simp only [fitLoop]
    exact hinv
  | succ fuel ih =>
    intro size lines vars iters hinv
    simp only [fitLoop]
    split_ifs with h1 h2
    · exact Or.inr ⟨size, rfl, rfl⟩
    · exact ih (size - 2) _ _ (iters + 1) (Or.inr ⟨size, rfl, rfl⟩)
    · exact hinv

theorem baselinesFrom_fst (lh ls : ℚ) : ∀ (y : ℚ) (n : ℕ),
    (baselinesFrom lh ls y n).1 =
      (List.range n).map (fun (i : ℕ) => y + (i : ℚ) * (lh + lh * (ls - 1)))
  | y, 0 => by simp [baselinesFrom]
  | y, 1 => by
    have h1 : List.range 1 = [0] := by decide
    simp [baselinesFrom, h1]
  | y, n + 2 => by
    have ih := baselinesFrom_fst lh ls (y + (lh + lh * (ls - 1))) (n + 1)
    show y :: (baselinesFrom lh ls (y + (lh + lh * (ls - 1))) (n + 1)).1 = _
    rw [ih]
    rw [show List.range (n + 2) = 0 :: List.map Nat.succ (List.range (n + 1)) from
      List.range_succ_eq_map (n + 1)]
    rw [List.map_cons, List.map_map]
    congr 1
    · norm_num
    · apply List.map_congr_left
      intro i _
      simp only [Function.comp_apply]
      push_cast
      ring

theorem baselinesFrom_snd (lh ls : ℚ) : ∀ (y : ℚ) (n : ℕ),
    (baselinesFrom lh ls y n).2 =
      if n = 0 then y else y + ((n : ℚ) - 1) * (lh + lh * (ls - 1)) + lh
  | y, 0 => by simp [baselinesFrom]
  | y, 1 => by simp [baselinesFrom]
  | y, n + 2 => by
    have ih := baselinesFrom_snd lh ls (y + (lh + lh * (ls - 1))) (n + 1)
    show (baselinesFrom lh ls (y + (lh + lh * (ls - 1))) (n + 1)).2 = _
    rw [ih, if_neg (Nat.succ_ne_zero n), if_neg (by omega : ¬(n + 2 = 0))]
    push_cast
    ring

theorem render_eq_of_vars (m : ℤ → JStr → ℚ) (lb : ℤ → ℚ) (inp : RenderInput)
    (v : FitVars) (hv : (fitSolver m lb inp).vars = some v) :
    render m lb inp =
      ⟨fitSolver m lb inp,
        some (((textAreaTop inp : ℤ) : ℚ) +
          ((⌊(((availableHeight inp : ℤ) : ℚ) - v.totalContentHeight) / 2⌋ : ℤ) : ℚ)),
        some (baselinesFrom v.actualLineHeight inp.lineSpacing
          (((textAreaTop inp : ℤ) : ℚ) +
            ((⌊(((availableHeight inp : ℤ) : ℚ) - v.totalContentHeight) / 2⌋ : ℤ) : ℚ))
          (fitSolver m lb inp).lines.length).1,
        if inp.reference = [] then none
        else some ((baselinesFrom v.actualLineHeight inp.lineSpacing
          (((textAreaTop inp : ℤ) : ℚ) +
            ((⌊(((availableHeight inp : ℤ) : ℚ) - v.totalContentHeight) / 2⌋ : ℤ) : ℚ))
          (fitSolver m lb inp).lines.length).2 + 40)⟩ := by
  simp only [render, hv]

/-- Width metric used in concrete instantiations: 200 pixels per character,
independent of font size. -/
def mWide : ℤ → JStr → ℚ := fun _ t => 200 * t.length

/-- Line-box metric used in concrete instantiations: a constant 10-pixel
line box. -/
def lbTen : ℤ → ℚ := fun _ => 10

/-- Zero-width metric: every string measures 0 pixels wide. -/
def mZero : ℤ → JStr → ℚ := fun _ _ => 0

/-- A 1000-pixel line box: the verse+reference block can never fit the band. -/
def lbBig : ℤ → ℚ := fun _ => 1000

/-- A render input with the canvas editor's defaults (canvas 1080x2340,
boundaries 38%/31%, font slider 64, line spacing 1.4) and a two-word verse
`"aa bb"` with reference `"Ps"`. -/
def inpA : RenderInput :=
  ⟨1080, 2340, 38, 31, 64, 7/5, ['a', 'a', ' ', 'b', 'b'], ['P', 's']⟩

/-- `inpA` with the font-size slider at the odd value 21 and verse `"a b"`. -/
def inp21 : RenderInput := { inpA with fontSize := 21, verse := ['a', ' ', 'b'] }

/-- `inpA` with the font-size slider at the floor value 20 and verse `"Hi"`. -/
def inp20 : RenderInput := { inpA with fontSize := 20, verse := ['H', 'i'] }

/-- Unfolding equation for `fitLoop` usable at numeral fuel values. -/
theorem fitLoop_eq (m : ℤ → JStr → ℚ) (lb : ℤ → ℚ) (inp : RenderInput)
    (fuel : ℕ) (size : ℤ) (lines : List JStr) (vars : Option FitVars) (iters : ℕ) :
    fitLoop m lb inp fuel size lines vars iters =
      if fuel = 0 then ⟨size, lines, vars, false, iters⟩
      else if 20 < size then
        let v := candidateVars m lb inp size
        let lines' := candidateLines m inp size
        if v.totalContentHeight ≤ ((availableHeight inp : ℤ) : ℚ) then
          ⟨size, lines', some v, true, iters + 1⟩
        else fitLoop m lb inp (fuel - 1) (size - 2) lines' (some v) (iters + 1)
      else ⟨size, lines, vars, false, iters⟩ := by
  cases fuel with
  | zero => simp [fitLoop]
  | succ f => simp [fitLoop]

/-- `inpA` with an infeasible band: both boundary sliders at 50%, so the band
has zero height and the available height is negative. -/
def inpInf : RenderInput := { inpA with topBoundaryPercent := 50, bottomBoundaryPercent := 50 }

/-- `baselinesFrom` at two lines, fully unfolded. -/
theorem baselinesFrom_two (lh ls y : ℚ) :
    baselinesFrom lh ls y 2 =
      ([y, y + (lh + lh * (ls - 1))], y + (lh + lh * (ls - 1)) + lh) := rfl

/-- `(render …).fit` is always the fit solver's result. -/
theorem render_fit (m : ℤ → JStr → ℚ) (lb : ℤ → ℚ) (inp : RenderInput) :
    (render m lb inp).fit = fitSolver m lb inp := by
  simp only [render]
  split <;> rfl

theorem candidateLinesA : candidateLines mWide inpA 64 = [['a', 'a'], ['b', 'b']] := by
  simp [candidateLines, wrapText, splitOnSpace, wrapLoop, testLine, mWide,
    renderMaxWidth, inpA]
  norm_num

theorem fitA_eval : fitSolver mWide lbTen inpA =
    ⟨64, [['a', 'a'], ['b', 'b']], some ⟨10, 64, 10, 74⟩, true, 1⟩ := by
  rw [fitSolver, fitLoop_eq]
  simp [candidateVars, candidateLines, wrapText, splitOnSpace, wrapLoop, testLine,
    mWide, lbTen, renderMaxWidth, availableHeight, textAreaTop, textAreaBottom,
    topBoundary, bottomBoundary, boundaryMargin, inpA, jsRound]
  norm_num

theorem fit21_eval : fitSolver mZero lbBig inp21 =
    ⟨19, [['a', ' ', 'b']], some ⟨1000, 21, 1000, 2040⟩, false, 1⟩ := by
  rw [fitSolver, fitLoop_eq]
  simp [candidateVars, candidateLines, wrapText, splitOnSpace, wrapLoop, testLine,
    mZero, lbBig, renderMaxWidth, availableHeight, textAreaTop, textAreaBottom,
    topBoundary, bottomBoundary, boundaryMargin, inp21, inpA, jsRound]
  rw [fitLoop_eq]
  norm_num

theorem fit20_eval : fitSolver mWide lbTen inp20 = ⟨20, [['H', 'i']], none, false, 0⟩ := by
  rw [fitSolver, fitLoop_eq]
  simp [candidateLines, wrapText, splitOnSpace, wrapLoop, testLine, mWide,
    renderMaxWidth, inp20, inpA]

theorem renderA_eval : render mWide lbTen inpA =
    ⟨⟨64, [['a', 'a'], ['b', 'b']], some ⟨10, 64, 10, 74⟩, true, 1⟩,
      some 1215, some [1215, 1229], some 1279⟩ := by
  rw [render_eq_of_vars mWide lbTen inpA ⟨10, 64, 10, 74⟩ (by rw [fitA_eval])]
  rw [fitA_eval]
  norm_num [availableHeight, textAreaTop, textAreaBottom, topBoundary, bottomBoundary,
    boundaryMargin, inpA, jsRound, baselinesFrom_two]
  simp

/-- The boundary computation of `fetchWallpaper` (main.js lines 206-211):
`topBoundary = Math.round(screenHeight * (topPercent / 100))`. -/
def fetchTopBoundary (screenHeight topPercent : ℚ) : ℤ :=
  jsRound (screenHeight * (topPercent / 100))

/-- `bottomBoundary = Math.round(screenHeight * ((100 - bottomPercent) / 100))`
(main.js line 211). -/
def fetchBottomBoundary (screenHeight bottomPercent : ℚ) : ℤ :=
  jsRound (screenHeight * ((100 - bottomPercent) / 100))

/-- `parseFloat(field.value) || default` (and `parseInt(...) || default`):
`none` models a parse result of `NaN` (non-numeric or empty input); JavaScript
`||` also replaces a parsed `0` by the default, because `0` is falsy.
(main.js lines 368-370.) -/
def jsNumOr (x : Option ℚ) (d : ℚ) : ℚ :=
  match x with
  | none => d
  | some q => if q = 0 then d else q

/-- The parse results of the three numeric fields `updatePreview` reads:
top-boundary percent, bottom-boundary percent, and screen height
(main.js lines 368-370). -/
structure PreviewFields where
  topRaw : Option ℚ
  bottomRaw : Option ℚ
  heightRaw : Option ℚ
  deriving DecidableEq

/-- The values `updatePreview` computes from the fields
(main.js lines 368-375). -/
structure PreviewCalc where
  topPercentValue : ℚ
  bottomPercentValue : ℚ
  screenHeight : ℚ
  topBoundaryPx : ℚ
  bottomBoundaryPx : ℚ
  textAreaHeight : ℚ
  deriving DecidableEq

/-- The numeric part of `updatePreview` (main.js lines 361-378): substitute
defaults for falsy parse results, then derive the pixel boundaries of the
text area. -/
def updatePreviewCalc (p : PreviewFields) : PreviewCalc :=
  let topPercentValue := jsNumOr p.topRaw 31
  let bottomPercentValue := jsNumOr p.bottomRaw 38
  let screenHeight := jsNumOr p.heightRaw 2340
  let topBoundaryPx := (topPercentValue / 100) * screenHeight
  let bottomBoundaryPx := screenHeight - (bottomPercentValue / 100) * screenHeight
  ⟨topPercentValue, bottomPercentValue, screenHeight, topBoundaryPx, bottomBoundaryPx,
    bottomBoundaryPx - topBoundaryPx⟩

theorem getD_map_range (f : ℕ → ℚ) {n i : ℕ} (h : i < n) :
    ((List.range n).map f).getD i 0 = f i := by
  rw [List.getD_eq_getElem _ _ (show i < ((List.range n).map f).length by simpa using h)]
  simp

theorem wrapA_eval :
    wrapText (mWide 64) ['a', 'a', ' ', 'b', 'b'] 920 = [['a', 'a'], ['b', 'b']] := by
  simp [wrapText, splitOnSpace, wrapLoop, testLine, mWide]
  norm_num

/-- C1: every line returned by `wrapText` has measured width at most
`maxWidth`, except a line that is a single input word, which may exceed
`maxWidth` and is emitted on its own line unmodified; a break happens exactly
when appending the next word makes the measured width strictly exceed
`maxWidth` while the current line is non-empty (so an equal-width fit stays on
the same line). -/
theorem wrap_line_width_bound (w : JStr → ℚ) (text : JStr) (maxW : ℚ) :
    (∀ l ∈ wrapText w text maxW, w l ≤ maxW ∨ l ∈ splitOnSpace text) ∧
    (∀ (cur word : JStr) (rest : List JStr), maxW < w (testLine cur word) → cur ≠ [] →
      wrapLoop w maxW (word :: rest) cur = cur :: wrapLoop w maxW rest word) ∧
    (∀ (cur word : JStr) (rest : List JStr), ¬(maxW < w (testLine cur word) ∧ cur ≠ []) →
      wrapLoop w maxW (word :: rest) cur = wrapLoop w maxW rest (testLine cur word)) := by
  refine ⟨?_, ?_, ?_⟩
  · intro l hl
    rw [wrapText] at hl
    rcases wrapLoop_sound w maxW (splitOnSpace text) [] l hl with hle | heq | hmem
    · exact Or.inl hle
    · exact absurd heq (wrapLoop_mem_ne_nil w maxW (splitOnSpace text) [] l hl)
    · exact Or.inr hmem
  · intro cur word rest h1 h2
    simp only [wrapLoop]
    rw [if_pos ⟨h1, h2⟩]
  · intro cur word rest hnot
    simp only [wrapLoop]
    rw [if_neg hnot]

/-- Witness for C1: at a 200px-per-character metric with maxWidth 920 and text
`"aa bb"`, the line `"aa"` is produced and satisfies the width bound. -/
theorem wrap_line_width_bound_witness :
    mWide 64 ['a', 'a'] ≤ 920 ∨ ['a', 'a'] ∈ splitOnSpace ['a', 'a', ' ', 'b', 'b'] :=
  (wrap_line_width_bound (mWide 64) ['a', 'a', ' ', 'b', 'b'] 920).1 ['a', 'a']
    (by rw [wrapA_eval]; simp)

/-- C10: for input text made of non-empty words separated by single spaces
(no leading/trailing whitespace), joining the wrapped lines with single spaces
reconstructs the text exactly, and every returned line is non-empty. -/
theorem wrap_reconstructs (w : JStr → ℚ) (text : JStr) (maxW : ℚ)
    (hwords : ∀ x ∈ splitOnSpace text, x ≠ []) :
    joinSp (wrapText w text maxW) = text ∧ ∀ l ∈ wrapText w text maxW, l ≠ [] := by
  refine ⟨?_, fun l hl => wrapLoop_mem_ne_nil w maxW (splitOnSpace text) [] l hl⟩
  rw [wrapText, wrapLoop_join w maxW (splitOnSpace text) [] hwords, if_pos rfl,
    joinSp_splitOnSpace]

/-- Witness for C10 at the text `"aa bb"`. -/
theorem wrap_reconstructs_witness :
    joinSp (wrapText (mWide 64) ['a', 'a', ' ', 'b', 'b'] 920) = ['a', 'a', ' ', 'b', 'b'] ∧
      ∀ l ∈ wrapText (mWide 64) ['a', 'a', ' ', 'b', 'b'] 920, l ≠ [] :=
  wrap_reconstructs (mWide 64) ['a', 'a', ' ', 'b', 'b'] 920 (by simp [splitOnSpace])

/-- C2 (amended): when the slider font size is at least the 20px floor *and
differs from it by a multiple of the 2px step* (as the even default 64 does),
the accepted font size lies in [20, initialFontSize] and the difference
initialFontSize − accepted is a non-negative exact multiple of 2.  (As
originally stated the claim fails for an odd starting size, which steps past
the floor to 19.) -/
theorem fit_size_range (m : ℤ → JStr → ℚ) (lb : ℤ → ℚ) (inp : RenderInput)
    (h20 : 20 ≤ inp.fontSize) (hstep : 2 ∣ (inp.fontSize - 20)) :
    20 ≤ (fitSolver m lb inp).fontSize ∧
    (fitSolver m lb inp).fontSize ≤ inp.fontSize ∧
    0 ≤ inp.fontSize - (fitSolver m lb inp).fontSize ∧
    2 ∣ (inp.fontSize - (fitSolver m lb inp).fontSize) := by
  have H := fitLoop_bounds m lb inp ((inp.fontSize - 20).toNat + 1) inp.fontSize
    (candidateLines m inp inp.fontSize) none 0
  simp only [fitSolver]
  omega

/-- C2 counterexample: with starting size 21 (≥ the floor) and metrics under
which nothing ever fits, the loop steps 21 → 19 and the accepted size 19 lies
outside [20, 21]. -/
theorem fit_size_range_cex :
    inp21.fontSize = 21 ∧ (fitSolver mZero lbBig inp21).fontSize = 19 ∧
      ¬(20 ≤ (fitSolver mZero lbBig inp21).fontSize) := by
  rw [fit21_eval]
  norm_num [inp21, inpA]

/-- Witness for C2 (amended) at the default slider size 64. -/
theorem fit_size_range_witness :
    20 ≤ (fitSolver mWide lbTen inpA).fontSize ∧
    (fitSolver mWide lbTen inpA).fontSize ≤ inpA.fontSize ∧
    0 ≤ inpA.fontSize - (fitSolver mWide lbTen inpA).fontSize ∧
    2 ∣ (inpA.fontSize - (fitSolver mWide lbTen inpA).fontSize) :=
  fit_size_range mWide lbTen inpA (by norm_num [inpA]) (by norm_num [inpA])

/-- C3 (amended): the shrink loop always terminates (it is a total function of
its input); when the starting size is ≥ the 20px floor and differs from it by
a multiple of the 2px step, it runs at most (initialFontSize − 20)/2
iterations and accepts exactly 20 whenever no candidate fits; and rendering
always proceeds to a result — never a thrown failure — including for an
infeasible band with non-positive available height.  (As originally stated the
claim fails for an odd starting size: one extra half-step beyond the bound and
acceptance of 19 instead of 20.) -/
theorem fit_loop_bound (m : ℤ → JStr → ℚ) (lb : ℤ → ℚ) (inp : RenderInput)
    (h20 : 20 ≤ inp.fontSize) (hstep : 2 ∣ (inp.fontSize - 20))
    (hverse : inp.verse ≠ []) :
    ((fitSolver m lb inp).iters : ℤ) ≤ (inp.fontSize - 20) / 2 ∧
    ((fitSolver m lb inp).fitted = false → (fitSolver m lb inp).fontSize = 20) ∧
    (renderCanvas m lb inp).isSome = true := by
  have H := fitLoop_bounds m lb inp ((inp.fontSize - 20).toNat + 1) inp.fontSize
    (candidateLines m inp inp.fontSize) none 0
  have H2 := fitLoop_min_of_not_fitted m lb inp ((inp.fontSize - 20).toNat + 1)
    inp.fontSize (candidateLines m inp inp.fontSize) none 0 (by omega)
  refine ⟨?_, ?_, by simp [renderCanvas, hverse]⟩
  · simp only [fitSolver]
    omega
  · intro hf
    simp only [fitSolver] at hf ⊢
    have H3 := H2 hf
    omega

/-- C3 counterexample: at starting size 21 with never-fitting metrics the loop
runs 1 iteration, exceeding the claimed bound (21 − 20)/2 = 0.5, and exhausts
without fitting yet accepts 19, not the 20px floor. -/
theorem fit_loop_bound_cex :
    (fitSolver mZero lbBig inp21).fitted = false ∧
    (fitSolver mZero lbBig inp21).fontSize ≠ 20 ∧
    (fitSolver mZero lbBig inp21).iters = 1 ∧
    ¬(((fitSolver mZero lbBig inp21).iters : ℚ) ≤ (((inp21.fontSize : ℤ) : ℚ) - 20) / 2) := by
  rw [fit21_eval]
  norm_num [inp21, inpA]

/-- Witness for C3 (amended) on an infeasible band (both boundaries at 50%,
available height negative). -/
theorem fit_loop_bound_witness :
    ((fitSolver mWide lbTen inpInf).iters : ℤ) ≤ (inpInf.fontSize - 20) / 2 ∧
    ((fitSolver mWide lbTen inpInf).fitted = false →
      (fitSolver mWide lbTen inpInf).fontSize = 20) ∧
    (renderCanvas mWide lbTen inpInf).isSome = true :=
  fit_loop_bound mWide lbTen inpInf (by norm_num [inpInf, inpA])
    (by norm_num [inpInf, inpA]) (by simp [inpInf, inpA])

/-- C4 (amended): in an accepted layout with at least two verse lines, *every*
consecutive baseline step — including the step onto the last line — is
lineHeight * lineSpacingMultiplier; the lineHeight-only advance happens after
the last line, so the reference baseline equals the last verse baseline +
lineHeight + interBlockSpacingPx (40).  (As originally stated the claim's
lineHeight-only step *to* the last line does not match the code, which applies
the multiplied step between every pair of consecutive lines.) -/
theorem baseline_steps (m : ℤ → JStr → ℚ) (lb : ℤ → ℚ) (inp : RenderInput)
    (v : FitVars) (ps : List ℚ)
    (hv : (fitSolver m lb inp).vars = some v)
    (hb : (render m lb inp).verseBaselines = some ps)
    (hlen : 2 ≤ ps.length) :
    (∀ i : ℕ, i + 1 < ps.length →
        ps.getD (i + 1) 0 = ps.getD i 0 + v.actualLineHeight * inp.lineSpacing) ∧
    (inp.reference ≠ [] →
        (render m lb inp).referenceBaseline =
          some (ps.getD (ps.length - 1) 0 + v.actualLineHeight + 40)) := by
  have hR := render_eq_of_vars m lb inp v hv
  rw [hR] at hb
  dsimp only at hb
  injection hb with hb
  subst hb
  rw [baselinesFrom_fst] at hlen
  simp only [List.length_map, List.length_range] at hlen
  constructor
  · intro i hi
    rw [baselinesFrom_fst] at hi ⊢
    simp only [List.length_map, List.length_range] at hi
    rw [getD_map_range _ hi, getD_map_range _ (by omega)]
    push_cast
    ring
  · intro href
    rw [hR]
    dsimp only
    rw [if_neg href, baselinesFrom_snd, baselinesFrom_fst]
    simp only [List.length_map, List.length_range]
    rw [if_neg (by omega : ¬(fitSolver m lb inp).lines.length = 0)]
    rw [getD_map_range _ (by omega : (fitSolver m lb inp).lines.length - 1 <
      (fitSolver m lb inp).lines.length)]
    congr 1
    rw [Nat.cast_sub (by omega : 1 ≤ (fitSolver m lb inp).lines.length)]
    push_cast
    ring

/-- C4 counterexample: an accepted two-line layout at lineHeight 10 and line
spacing 1.4 has baselines [1215, 1229]: the step to the last line is 14
(= lineHeight * spacing), not the claimed plain lineHeight 10. -/
theorem baseline_steps_cex :
    (render mWide lbTen inpA).verseBaselines = some [1215, 1229] ∧
    (fitSolver mWide lbTen inpA).vars = some ⟨10, 64, 10, 74⟩ ∧
    ¬((1229 : ℚ) = 1215 + 10) := by
  rw [renderA_eval, fitA_eval]
  norm_num

/-- Witness for C4 (amended) on the concrete accepted two-line layout. -/
theorem baseline_steps_witness :
    ([1215, 1229] : List ℚ).getD (0 + 1) 0 =
      ([1215, 1229] : List ℚ).getD 0 0 +
        (⟨10, 64, 10, 74⟩ : FitVars).actualLineHeight * inpA.lineSpacing :=
  (baseline_steps mWide lbTen inpA ⟨10, 64, 10, 74⟩ [1215, 1229]
    (by rw [fitA_eval]) (by rw [renderA_eval]) (by norm_num)).1 0 (by norm_num)

/-- C5: in an accepted layout, the first drawn position is
startY = topBoundaryPx + marginPx + ⌊(available − total)/2⌋ with
available = (bottomBoundaryPx − topBoundaryPx) − 2·marginPx; the vertical
midpoint of the occupied block is within one pixel of the band midpoint; and
(for a positive line box and positive line spacing) successive baselines
strictly increase down the page. -/
theorem start_centered (m : ℤ → JStr → ℚ) (lb : ℤ → ℚ) (inp : RenderInput) (v : FitVars)
    (hv : (fitSolver m lb inp).vars = some v)
    (hlh : 0 < v.actualLineHeight) (hls : 0 < inp.lineSpacing) :
    (render m lb inp).startY = some (((topBoundary inp + boundaryMargin : ℤ) : ℚ) +
        ((⌊(((bottomBoundary inp - topBoundary inp - 2 * boundaryMargin : ℤ) : ℚ) -
            v.totalContentHeight) / 2⌋ : ℤ) : ℚ)) ∧
    (∀ y : ℚ, (render m lb inp).startY = some y →
        |(y + v.totalContentHeight / 2) -
            (((topBoundary inp : ℤ) : ℚ) + ((bottomBoundary inp : ℤ) : ℚ)) / 2| < 1) ∧
    (∀ ps : List ℚ, (render m lb inp).verseBaselines = some ps →
        ∀ i : ℕ, i + 1 < ps.length → ps.getD i 0 < ps.getD (i + 1) 0) := by
  have hR := render_eq_of_vars m lb inp v hv
  have havail : availableHeight inp = bottomBoundary inp - topBoundary inp -
      2 * boundaryMargin := by
    simp only [availableHeight, textAreaTop, textAreaBottom]
    ring
  have htop : textAreaTop inp = topBoundary inp + boundaryMargin := rfl
  refine ⟨?_, ?_, ?_⟩
  · rw [hR]
    dsimp only
    rw [htop, havail]
  · intro y hy
    rw [hR] at hy
    dsimp only at hy
    injection hy with hy
    subst hy
    have h1 := Int.floor_le ((((availableHeight inp : ℤ) : ℚ) - v.totalContentHeight) / 2)
    have h2 := Int.lt_floor_add_one
      ((((availableHeight inp : ℤ) : ℚ) - v.totalContentHeight) / 2)
    have hAv : ((availableHeight inp : ℤ) : ℚ) =
        ((bottomBoundary inp : ℤ) : ℚ) - ((topBoundary inp : ℤ) : ℚ) - 80 := by
      rw [havail]
      simp only [boundaryMargin]
      push_cast
      ring
    have hT : ((textAreaTop inp : ℤ) : ℚ) = ((topBoundary inp : ℤ) : ℚ) + 40 := by
      rw [htop]
      simp only [boundaryMargin]
      push_cast
      ring
    rw [abs_lt]
    constructor
    · rw [hAv] at h1 h2
      rw [hT, hAv]
      linarith
    · rw [hAv] at h1 h2
      rw [hT, hAv]
      linarith
  · intro ps hps
    rw [hR] at hps
    dsimp only at hps
    injection hps with hps
    subst hps
    intro i hi
    rw [baselinesFrom_fst] at hi ⊢
    simp only [List.length_map, List.length_range] at hi
    rw [getD_map_range _ (by omega), getD_map_range _ hi]
    have hpos : 0 < v.actualLineHeight + v.actualLineHeight * (inp.lineSpacing - 1) := by
      have hm := mul_pos hlh hls
      nlinarith
    push_cast
    nlinarith [hpos]

/-- Witness for C5: the accepted concrete layout at startY 1215 and total
height 74 is centered within one pixel of the band midpoint of `inpA`. -/
theorem start_centered_witness :
    |((1215 : ℚ) + (⟨10, 64, 10, 74⟩ : FitVars).totalContentHeight / 2) -
        (((topBoundary inpA : ℤ) : ℚ) + ((bottomBoundary inpA : ℤ) : ℚ)) / 2| < 1 :=
  (start_centered mWide lbTen inpA ⟨10, 64, 10, 74⟩ (by rw [fitA_eval])
    (by norm_num) (by norm_num [inpA])).2.1 1215 (by rw [renderA_eval])

/-- C6: at every candidate font size the solver's verse height is
lineHeight·lineCount plus, only when lineCount > 1,
lineHeight·(lineSpacing − 1)·(lineCount − 1) — the multiplier applies only
between lines — and the total tested against the available height is
verseHeight + 40 + referenceHeight with the reference measured (same `'Ag'`
line box) at the same font size as the verse; the solver's accepted variables
are exactly those of one candidate size. -/
theorem total_height_formula (m : ℤ → JStr → ℚ) (lb : ℤ → ℚ) (inp : RenderInput)
    (v : FitVars) (h : (fitSolver m lb inp).vars = some v) :
    (∀ size : ℤ, (candidateVars m lb inp size).totalContentHeight =
        lb size * ((candidateLines m inp size).length : ℚ) +
          (if 1 < (candidateLines m inp size).length then
              lb size * (inp.lineSpacing - 1) * (((candidateLines m inp size).length : ℚ) - 1)
            else 0) + 40 + (candidateVars m lb inp size).referenceHeight) ∧
    (∀ size : ℤ, (candidateVars m lb inp size).referenceFontSize = size ∧
        (candidateVars m lb inp size).referenceHeight = lb size ∧
        (candidateVars m lb inp size).actualLineHeight = lb size) ∧
    v = candidateVars m lb inp v.referenceFontSize ∧
    (fitSolver m lb inp).lines = candidateLines m inp v.referenceFontSize := by
  have hinv := fitLoop_vars_inv m lb inp ((inp.fontSize - 20).toNat + 1) inp.fontSize
    (candidateLines m inp inp.fontSize) none 0 (Or.inl rfl)
  have hmain : ∃ s, (fitSolver m lb inp).vars = some (candidateVars m lb inp s) ∧
      (fitSolver m lb inp).lines = candidateLines m inp s := by
    rcases hinv with hnone | hs
    · simp only [fitSolver] at h
      rw [h] at hnone
      exact absurd hnone (by simp)
    · simp only [fitSolver]
      exact hs
  obtain ⟨s, hvs, hlines⟩ := hmain
  have hv2 : v = candidateVars m lb inp s := by
    rw [h] at hvs
    injection hvs
  have hsref : (candidateVars m lb inp s).referenceFontSize = s := rfl
  refine ⟨?_, fun size => ⟨rfl, rfl, rfl⟩, ?_, ?_⟩
  · intro size
    simp only [candidateVars]
    split_ifs <;> ring
  · rw [hv2, hsref]
  · rw [hv2, hsref]
    exact hlines

/-- Witness for C6 on the concrete accepted layout of `inpA`. -/
theorem total_height_formula_witness :
    (⟨10, 64, 10, 74⟩ : FitVars) =
      candidateVars mWide lbTen inpA (⟨10, 64, 10, 74⟩ : FitVars).referenceFontSize :=
  (total_height_formula mWide lbTen inpA ⟨10, 64, 10, 74⟩ (by rw [fitA_eval])).2.2.1

/-- C7 (amended): with canvasHeight 2340, topBoundaryPercent 38 and
bottomBoundaryPercent 31 the renderer's band is [889, 1615], i.e. 726 pixels
high; this agrees with the spec's Band formula
bottomBoundaryPx = canvasHeight − round(canvasHeight·bottomPercent/100) and
with the `fetchWallpaper` computation — the claimed [889, 1624] (735px) is
what neither formula yields. -/
theorem band_pixels :
    topBoundary inpA = 889 ∧ bottomBoundary inpA = 1615 ∧
    bottomBoundary inpA - topBoundary inpA = 726 ∧
    (2340 : ℤ) - jsRound ((2340 : ℚ) * (31 / 100)) = 1615 ∧
    fetchTopBoundary 2340 38 = 889 ∧ fetchBottomBoundary 2340 31 = 1615 := by
  norm_num [topBoundary, bottomBoundary, fetchTopBoundary, fetchBottomBoundary,
    jsRound, inpA]

/-- C7 counterexample: at those inputs the renderer's bottom boundary is 1615,
not the claimed 1624, and the band is 726 pixels high, not 735. -/
theorem band_pixels_cex :
    bottomBoundary inpA = 1615 ∧ (1615 : ℤ) ≠ 1624 ∧
    bottomBoundary inpA - topBoundary inpA ≠ 735 := by
  norm_num [topBoundary, bottomBoundary, jsRound, inpA]

/-- C8 (amended): in `updatePreview`, a numeric field whose parse yields NaN
(non-numeric or empty) — or the falsy value 0 — is replaced by the documented
defaults top = 31, bottom = 38, screenHeight = 2340, and the update always
completes; but an out-of-range numeric value is used as-is, not replaced. -/
theorem preview_defaults (p : PreviewFields) :
    ((p.topRaw = none ∨ p.topRaw = some 0) → (updatePreviewCalc p).topPercentValue = 31) ∧
    ((p.bottomRaw = none ∨ p.bottomRaw = some 0) →
      (updatePreviewCalc p).bottomPercentValue = 38) ∧
    ((p.heightRaw = none ∨ p.heightRaw = some 0) →
      (updatePreviewCalc p).screenHeight = 2340) ∧
    (∀ q : ℚ, q ≠ 0 → p.topRaw = some q → (updatePreviewCalc p).topPercentValue = q) ∧
    (updatePreviewCalc p).textAreaHeight =
      (updatePreviewCalc p).bottomBoundaryPx - (updatePreviewCalc p).topBoundaryPx := by
  refine ⟨?_, ?_, ?_, ?_, rfl⟩
  · rintro (h | h) <;> simp [updatePreviewCalc, jsNumOr, h]
  · rintro (h | h) <;> simp [updatePreviewCalc, jsNumOr, h]
  · rintro (h | h) <;> simp [updatePreviewCalc, jsNumOr, h]
  · intro q hq h
    simp [updatePreviewCalc, jsNumOr, h, hq]

/-- C8 counterexample: the out-of-range top percentage 150 is kept, not
replaced by the default 31. -/
theorem preview_defaults_cex :
    (updatePreviewCalc ⟨some 150, some 38, some 2340⟩).topPercentValue = 150 ∧
      (150 : ℚ) ≠ 31 := by
  norm_num [updatePreviewCalc, jsNumOr]

/-- Witness for C8 (amended): a NaN top field and a zero bottom field get the
defaults. -/
theorem preview_defaults_witness :
    (updatePreviewCalc ⟨none, some 0, some 2340⟩).topPercentValue = 31 ∧
    (updatePreviewCalc ⟨none, some 0, some 2340⟩).bottomPercentValue = 38 :=
  ⟨(preview_defaults ⟨none, some 0, some 2340⟩).1 (Or.inl rfl),
    (preview_defaults ⟨none, some 0, some 2340⟩).2.1 (Or.inr rfl)⟩

/-- C9 (code bug): at the reachable slider floor fontSize = 20 with a
non-empty verse, the `while (currentFontSize > 20)` body runs zero times,
`totalContentHeight`/`actualLineHeight` stay `undefined`, and `startY` and
every drawn position evaluate to NaN (modelled `none`) — not the well-defined
finite numbers the claim asserts. -/
theorem render_nan_at_font_floor :
    inp20.fontSize = 20 ∧ inp20.verse ≠ [] ∧
    renderCanvas mWide lbTen inp20 =
      some ⟨⟨20, [['H', 'i']], none, false, 0⟩, none, none, none⟩ := by
  refine ⟨rfl, by simp [inp20, inpA], ?_⟩
  rw [renderCanvas, if_neg (by simp [inp20, inpA])]
  simp [render, fit20_eval]
